import Mathlib

/-!
Shallow embedding of the two data-access classes of this repository:

* `FlairCollection` (the "TagStore" of the design document), from
  `src/app/imports/api/flairs/FlairCollection.js`: stores `{name, description?}`
  documents, enforces name uniqueness at `define` time, and offers name↔docID
  resolution (`findName`/`findNames`, `findID`/`findIDs`, `assertName`/
  `assertNames`, `dumpOne`).
* `ProfileCollection` (the "ProfileStore"), from `src/unnamed/part_000`:
  stores profile documents, validating username uniqueness, referential
  validity of `interests` (against the external InterestStore) and `flairs`
  (against the FlairCollection), and absence of duplicates inside each array,
  before a single insert.

Documents live in an explicit store state (a list of documents plus the next
system-assigned identifier).  docIDs are modelled as naturals assigned
sequentially by the insert primitive.  Methods that can throw return
`Except Err`; mutating methods additionally return the (possibly updated)
store state, so that a theorem can speak about what a failing call did to the
store.  JavaScript `undefined` arguments are modelled with `Option`.
-/

/-- A stored tag ("flair") document: system-assigned `_id`, `name`, and an
optional `description` (the schema marks `description` as `optional`). -/
structure Tag where
  _id : Nat
  name : String
  description : Option String
deriving Repr, DecidableEq

/-- The state of the flair store: the stored documents plus the next
system-assigned docID. -/
structure TagState where
  docs : List Tag
  nextId : Nat
deriving Repr, DecidableEq

/-- The empty flair store. -/
def TagState.empty : TagState := ⟨[], 0⟩

/-- Modelled from the spec: the storage engine's `insert(record) -> id`
primitive of the out-of-src `BaseCollection`; it assigns the next opaque
identifier to the record and appends it to the collection. -/
def TagState.insertTag (s : TagState) (n : String) (d : Option String) :
    Nat × TagState :=
  (s.nextId, ⟨s.docs ++ [⟨s.nextId, n, d⟩], s.nextId + 1⟩)

/-- Modelled from the spec: `BaseCollection.findDoc` (out of src) resolving a
docID — returns the first stored document with that `_id`, if any. -/
def TagState.findDocID (s : TagState) (i : Nat) : Option Tag :=
  s.docs.find? (fun t => t._id = i)

/-- Modelled from the spec: `BaseCollection.findDoc` (out of src) resolving a
name — returns the first stored document with that `name`, if any. -/
def TagState.findDocName (s : TagState) (n : String) : Option Tag :=
  s.docs.find? (fun t => t.name = n)

/-- The labelled failures raised by the two collections (and by the external
libraries they call). -/
inductive Err where
  /-- `check(value, pattern)` raised a `Match.Error` (value did not match). -/
  | matchFailed : Err
  /-- ``new Meteor.Error(`${name} is previously defined in another
  FlairCollection`)``. -/
  | previouslyDefined : String → Err
  /-- `BaseCollection.findDoc` failed to resolve its argument. -/
  | notFound : Err
  /-- A method was invoked on `undefined` (JavaScript `TypeError`). -/
  | typeError : Err
  /-- ``new Meteor.Error(`${username} is previously defined in another
  Profile`)``. -/
  | usernameDefined : String → Err
  /-- The external InterestStore's name assertion failed on this name. -/
  | interestNotFound : String → Err
  /-- ``new Meteor.Error(`${interests} contains duplicates`)``. -/
  | interestsDuplicates : List String → Err
  /-- ``new Meteor.Error(`${flairs} contains duplicates`)``. -/
  | flairsDuplicates : List String → Err
deriving Repr, DecidableEq

/-- The argument object of `FlairCollection.define({ name, description })`:
`description` may be absent (`undefined`), which `Option` models. -/
structure FlairDefineInput where
  name : String
  description : Option String
deriving Repr, DecidableEq

/-- `FlairCollection.define({ name, description })`:
`check(name, String)` (always passes here, `name` is a string by typing);
`check(description, String)` (a `Match.Error` when `description` is
`undefined`); then fails if `this.find({ name }).count() > 0`, else inserts
`{ name, description }` and returns the new docID.  The store state is
returned alongside so failing calls can be compared with the input state. -/
def FlairCollection.define (s : TagState) (inp : FlairDefineInput) :
    Except Err Nat × TagState :=
  match inp.description with
  | none => (.error .matchFailed, s)
  | some d =>
    if ((s.docs.filter (fun t => t.name = inp.name)).length > 0) then
      (.error (.previouslyDefined inp.name), s)
    else
      let r := s.insertTag inp.name (some d)
      (.ok r.1, r.2)

/-- `FlairCollection.findName(interestID)`: `assertDefined` then
`findDoc(interestID).name`. -/
def FlairCollection.findName (s : TagState) (interestID : Nat) :
    Except Err String :=
  match s.findDocID interestID with
  | none => .error .notFound
  | some doc => .ok doc.name

/-- `FlairCollection.findNames(interestIDs)`:
`interestIDs.map(interestID => this.findName(interestID))`.  When
`interestIDs` is `undefined` (`none`), calling `.map` on it is a JavaScript
`TypeError`; otherwise the list is mapped left to right, the first failing
`findName` aborting the call. -/
def FlairCollection.findNamesList (s : TagState) :
    List Nat → Except Err (List String)
  | [] => .ok []
  | i :: is =>
    match FlairCollection.findName s i with
    | .error e => .error e
    | .ok n =>
      match FlairCollection.findNamesList s is with
      | .error e => .error e
      | .ok ns => .ok (n :: ns)

/-- See `FlairCollection.findNamesList`; this wrapper handles the `undefined`
argument case of `findNames`. -/
def FlairCollection.findNames (s : TagState) (interestIDs : Option (List Nat)) :
    Except Err (List String) :=
  match interestIDs with
  | none => .error .typeError
  | some is => FlairCollection.findNamesList s is

/-- `FlairCollection.assertName(name)`: `this.findDoc(name)`, discarding the
result — an error exactly when the name does not resolve. -/
def FlairCollection.assertName (s : TagState) (n : String) : Except Err Unit :=
  match s.findDocName n with
  | none => .error .notFound
  | some _ => .ok ()

/-- `FlairCollection.assertNames(names)`:
`_.each(names, name => this.assertName(name))`, left to right, first failure
aborting the call. -/
def FlairCollection.assertNames (s : TagState) :
    List String → Except Err Unit
  | [] => .ok ()
  | n :: ns =>
    match FlairCollection.assertName s n with
    | .error e => .error e
    | .ok _ => FlairCollection.assertNames s ns

/-- `FlairCollection.findID(name)`: `this.findDoc(name)._id`. -/
def FlairCollection.findID (s : TagState) (n : String) : Except Err Nat :=
  match s.findDocName n with
  | none => .error .notFound
  | some doc => .ok doc._id

/-- `names.map(instance => this.findID(instance))`, left to right, the first
failing `findID` aborting the call. -/
def FlairCollection.findIDsList (s : TagState) :
    List String → Except Err (List Nat)
  | [] => .ok []
  | n :: ns =>
    match FlairCollection.findID s n with
    | .error e => .error e
    | .ok i =>
      match FlairCollection.findIDsList s ns with
      | .error e => .error e
      | .ok is => .ok (i :: is)

/-- `FlairCollection.findIDs(names)`:
`(names) ? names.map(instance => this.findID(instance)) : []` — an
`undefined` argument takes the `[]` branch (an empty array is truthy in
JavaScript, so `[]` goes through `.map` and also yields `[]`). -/
def FlairCollection.findIDs (s : TagState) (names : Option (List String)) :
    Except Err (List Nat) :=
  match names with
  | none => .ok []
  | some ns => FlairCollection.findIDsList s ns

/-- `FlairCollection.dumpOne(docID)`: `findDoc(docID)`, then
`{ name, description }` of the found document — an object in the argument
shape of `define`. -/
def FlairCollection.dumpOne (s : TagState) (docID : Nat) :
    Except Err FlairDefineInput :=
  match s.findDocID docID with
  | none => .error .notFound
  | some doc => .ok ⟨doc.name, doc.description⟩

/-- A stored profile document (all fields as inserted by
`ProfileCollection.define`). -/
structure Profile where
  _id : Nat
  firstName : String
  lastName : String
  username : String
  bio : String
  interests : List String
  flairs : List String
  picture : String
  title : String
  github : String
  facebook : String
  instagram : String
deriving Repr, DecidableEq

/-- The state of the profile store: stored documents plus the next
system-assigned docID. -/
structure ProfileState where
  docs : List Profile
  nextId : Nat
deriving Repr, DecidableEq

/-- The empty profile store. -/
def ProfileState.empty : ProfileState := ⟨[], 0⟩

/-- Modelled from the spec: the external InterestStore (an out-of-scope
collaborator); only its name-assertion capability is used, so the model is
just the set of defined interest names. -/
structure InterestState where
  names : List String
deriving Repr, DecidableEq

/-- Modelled from the spec: `InterestStore.assertNames(names)` fails exactly
when some entry is not a defined interest name, checking left to right. -/
def Interests.assertNames (ist : InterestState) :
    List String → Except Err Unit
  | [] => .ok ()
  | n :: ns =>
    if n ∈ ist.names then Interests.assertNames ist ns
    else .error (.interestNotFound n)

/-- `_.uniq(l)` of the underscore library: the elements of `l` with duplicate
occurrences removed, keeping first occurrences in order. -/
def uniq : List String → List String
  | [] => []
  | x :: xs => x :: uniq (xs.filter (fun y => y != x))
termination_by l => l.length
decreasing_by
  simp only [List.length_cons]
  exact Nat.lt_succ_of_le (List.length_filter_le _ _)

/-- The argument object of `ProfileCollection.define({...})` with `username`
present: every key other than `username` may be absent (`undefined`), which
`Option` models; the destructuring defaults of the source are applied inside
`define`.  The raw argument object, in which `username` may itself be
absent, is `ProfileRawInput` below — `username` is the one destructured
field with no default, so an absent username reaches
`check({...}, checkPattern)` as `undefined` and fails there. -/
structure ProfileDefineInput where
  firstName : Option String
  lastName : Option String
  username : String
  bio : Option String
  interests : Option (List String)
  flairs : Option (List String)
  picture : Option String
  title : Option String
  github : Option String
  facebook : Option String
  instagram : Option String
deriving Repr, DecidableEq

/-- `ProfileCollection.define({...})`, with the destructuring defaults
(`''` for the string fields, `[]` for `interests`/`flairs`), then in order:
`check({...}, checkPattern)` (always passes: after defaulting every checked
field is a string); fail if the username is already taken; fail if some
interest is not defined (`Interests.assertNames`); fail if `interests`
contains duplicates (`length !== _.uniq(...).length`); fail if some flair is
not defined (`Flairs.assertNames`); fail if `flairs` contains duplicates;
else insert the full record and return the new docID.  The profile store
state is returned alongside. -/
def ProfileCollection.define (ist : InterestState) (ts : TagState)
    (s : ProfileState) (inp : ProfileDefineInput) :
    Except Err Nat × ProfileState :=
  if ((s.docs.filter (fun p => p.username = inp.username)).length > 0) then
    (.error (.usernameDefined inp.username), s)
  else
    match Interests.assertNames ist (inp.interests.getD []) with
    | .error e => (.error e, s)
    | .ok _ =>
      if (inp.interests.getD []).length ≠ (uniq (inp.interests.getD [])).length then
        (.error (.interestsDuplicates (inp.interests.getD [])), s)
      else
        match FlairCollection.assertNames ts (inp.flairs.getD []) with
        | .error e => (.error e, s)
        | .ok _ =>
          if (inp.flairs.getD []).length ≠ (uniq (inp.flairs.getD [])).length then
            (.error (.flairsDuplicates (inp.flairs.getD [])), s)
          else
            (.ok s.nextId,
             ⟨s.docs ++ [⟨s.nextId, inp.firstName.getD "", inp.lastName.getD "",
                          inp.username, inp.bio.getD "", inp.interests.getD [],
                          inp.flairs.getD [], inp.picture.getD "",
                          inp.title.getD "", inp.github.getD "",
                          inp.facebook.getD "", inp.instagram.getD ""⟩],
              s.nextId + 1⟩)

/-- The raw argument object of `ProfileCollection.define({...})`: every key,
`username` included, may be absent (`undefined`). -/
structure ProfileRawInput where
  firstName : Option String
  lastName : Option String
  username : Option String
  bio : Option String
  interests : Option (List String)
  flairs : Option (List String)
  picture : Option String
  title : Option String
  github : Option String
  facebook : Option String
  instagram : Option String
deriving Repr, DecidableEq

/-- `ProfileCollection.define({...})` on the raw argument object.  The
destructuring gives every field a default except `username`; the body then
runs `check({ firstName, lastName, username, bio, picture, title },
checkPattern)` — when `username` is absent it is still `undefined` there and
`check` raises a `Match.Error`; every other checked field is a string after
defaulting, so with `username` present the call proceeds exactly as
`ProfileCollection.define` on the destructured input. -/
def ProfileCollection.defineRaw (ist : InterestState) (ts : TagState)
    (s : ProfileState) (inp : ProfileRawInput) :
    Except Err Nat × ProfileState :=
  match inp.username with
  | none => (.error .matchFailed, s)
  | some u =>
    ProfileCollection.define ist ts s
      ⟨inp.firstName, inp.lastName, u, inp.bio, inp.interests, inp.flairs,
       inp.picture, inp.title, inp.github, inp.facebook, inp.instagram⟩

/-- The flair-store states reachable from the empty store by (successful)
`define` calls — the only mutating operation of the surface. -/
inductive TagReachable : TagState → Prop where
  | init : TagReachable TagState.empty
  | step (s : TagState) (inp : FlairDefineInput) (i : Nat) (s' : TagState) :
      TagReachable s → FlairCollection.define s inp = (.ok i, s') →
      TagReachable s'

/-! ### Bridging lemmas between the embedded code and set-style statements -/

lemma TagState.filter_name_pos_iff (s : TagState) (n : String) :
    0 < (s.docs.filter (fun t => t.name = n)).length ↔ ∃ t ∈ s.docs, t.name = n := by
  simp [List.length_pos_iff_exists_mem, List.mem_filter]

lemma uniq_length_le (l : List String) : (uniq l).length ≤ l.length := by
  induction l using uniq.induct with
  | case1 => simp [uniq]
  | case2 x xs ih =>
    simp only [uniq, List.length_cons, Nat.succ_le_succ_iff]
    exact ih.trans (List.length_filter_le _ _)

lemma uniq_length_eq_iff (l : List String) :
    (uniq l).length = l.length ↔ l.Nodup := by
  induction l using uniq.induct with
  | case1 => simp [uniq]
  | case2 x xs ih =>
    simp only [uniq, List.length_cons, Nat.succ_inj, List.nodup_cons]
    by_cases hx : x ∈ xs
    · have hlt : (xs.filter (fun y => y != x)).length < xs.length :=
        List.length_filter_lt_length_iff_exists.mpr ⟨x, hx, by simp⟩
      have hne : ¬ (uniq (xs.filter (fun y => y != x))).length = xs.length :=
        Nat.ne_of_lt (Nat.lt_of_le_of_lt (uniq_length_le _) hlt)
      constructor
      · intro h; exact absurd h hne
      · rintro ⟨hnotin, -⟩; exact absurd hx hnotin
    · have hfx : xs.filter (fun y => y != x) = xs :=
        List.filter_eq_self.mpr (fun a ha => by
          simp only [bne_iff_ne, ne_eq]
          exact fun hax => hx (hax ▸ ha))
      rw [hfx] at ih ⊢
      simp [ih, hx]

lemma Interests.interestAssertNames_ok_iff (ist : InterestState) (ns : List String) :
    Interests.assertNames ist ns = .ok () ↔ ∀ n ∈ ns, n ∈ ist.names := by
  induction ns with
  | nil => simp [Interests.assertNames]
  | cons n ns ih =>
    by_cases hn : n ∈ ist.names
    · simp [Interests.assertNames, hn, ih]
    · simp [Interests.assertNames, hn]

lemma Interests.interestAssertNames_error_of (ist : InterestState) (ns : List String)
    (h : ∃ n ∈ ns, n ∉ ist.names) :
    ∃ n, Interests.assertNames ist ns = .error (.interestNotFound n) ∧
      n ∈ ns ∧ n ∉ ist.names := by
  induction ns with
  | nil => simp at h
  | cons m ms ih =>
    by_cases hm : m ∈ ist.names
    · obtain ⟨n, hn, hnotin⟩ := h
      rcases List.mem_cons.mp hn with rfl | hn'
      · exact absurd hm hnotin
      · obtain ⟨k, hk, hkmem, hknot⟩ := ih ⟨n, hn', hnotin⟩
        exact ⟨k, by simp [Interests.assertNames, hm, hk],
               List.mem_cons_of_mem _ hkmem, hknot⟩
    · exact ⟨m, by simp [Interests.assertNames, hm],
             List.mem_cons_self _ _, hm⟩

lemma FlairCollection.assertName_ok_iff (s : TagState) (n : String) :
    FlairCollection.assertName s n = .ok () ↔ ∃ t ∈ s.docs, t.name = n := by
  unfold FlairCollection.assertName TagState.findDocName
  cases hfind : s.docs.find? (fun t => t.name = n) with
  | none =>
    have hno : ¬ ∃ t ∈ s.docs, t.name = n := by
      rintro ⟨t, ht, htn⟩
      have hsome : (s.docs.find? (fun t => t.name = n)).isSome :=
        List.find?_isSome.mpr ⟨t, ht, by simp [htn]⟩
      rw [hfind] at hsome
      simp at hsome
    simp [hno]
  | some t =>
    have ht : t ∈ s.docs := List.mem_of_find?_eq_some hfind
    have htn : t.name = n := by simpa using List.find?_some hfind
    simp
    exact ⟨t, ht, htn⟩

lemma FlairCollection.assertNames_ok_iff (s : TagState) (ns : List String) :
    FlairCollection.assertNames s ns = .ok () ↔
      ∀ n ∈ ns, ∃ t ∈ s.docs, t.name = n := by
  induction ns with
  | nil => simp [FlairCollection.assertNames]
  | cons n ns ih =>
    unfold FlairCollection.assertNames
    cases h : FlairCollection.assertName s n with
    | error e =>
      have hno : ¬ ∃ t ∈ s.docs, t.name = n := by
        rw [← FlairCollection.assertName_ok_iff s n]
        simp [h]
      simp [hno]
    | ok u =>
      cases u
      have hyes : ∃ t ∈ s.docs, t.name = n :=
        (FlairCollection.assertName_ok_iff s n).mp h
      simp [ih, hyes]

lemma FlairCollection.assertNames_error_of (s : TagState) (ns : List String)
    (h : ∃ n ∈ ns, ∀ t ∈ s.docs, t.name ≠ n) :
    FlairCollection.assertNames s ns = .error .notFound := by
  induction ns with
  | nil => simp at h
  | cons m ms ih =>
    unfold FlairCollection.assertNames
    cases hm : FlairCollection.assertName s m with
    | error e =>
      unfold FlairCollection.assertName TagState.findDocName at hm
      cases hfind : s.docs.find? (fun t => t.name = m) with
      | none => rw [hfind] at hm; simp only [Except.error.injEq] at hm; rw [← hm]
      | some t => rw [hfind] at hm; simp at hm
    | ok u =>
      cases u
      have hmem : ∃ t ∈ s.docs, t.name = m :=
        (FlairCollection.assertName_ok_iff s m).mp hm
      obtain ⟨n, hn, hnone⟩ := h
      rcases List.mem_cons.mp hn with rfl | hn'
      · obtain ⟨t, ht, htn⟩ := hmem
        exact absurd htn (hnone t ht)
      · exact ih ⟨n, hn', hnone⟩

lemma FlairCollection.findID_of_mem (s : TagState)
    (hnd : (s.docs.map (fun t => t.name)).Nodup) (t : Tag) (ht : t ∈ s.docs) :
    FlairCollection.findID s t.name = .ok t._id := by
  unfold FlairCollection.findID TagState.findDocName
  cases hfind : s.docs.find? (fun u => u.name = t.name) with
  | none =>
    exfalso
    have hsome : (s.docs.find? (fun u => u.name = t.name)).isSome :=
      List.find?_isSome.mpr ⟨t, ht, by simp⟩
    rw [hfind] at hsome
    simp at hsome
  | some u =>
    have hu : u.name = t.name := by simpa using List.find?_some hfind
    have hmem : u ∈ s.docs := List.mem_of_find?_eq_some hfind
    have hut : u = t := List.inj_on_of_nodup_map hnd hmem ht hu
    simp [hut]

lemma FlairCollection.findName_of_findDocID (s : TagState) (i : Nat) (t : Tag)
    (h : s.findDocID i = some t) :
    FlairCollection.findName s i = .ok t.name := by
  unfold FlairCollection.findName
  rw [h]

lemma find?_append_of_none {α : Type} (l₁ l₂ : List α) (p : α → Bool)
    (h : l₁.find? p = none) : (l₁ ++ l₂).find? p = l₂.find? p := by
  rw [List.find?_append, h, Option.none_or]

/-! ### Claim theorems -/

/-- Claim C3 (code bug): the spec and the collection's own schema and doc
comment make `description` optional, but `FlairCollection.define` runs
`check(description, String)`, which raises a `Match.Error` whenever
`description` is absent — so `define` with an omitted description always
fails instead of succeeding, in every store state and for every name. -/
theorem flairDefine_rejects_absent_description (s : TagState) (n : String) :
    (FlairCollection.define s ⟨n, none⟩).1 = .error .matchFailed ∧
    (FlairCollection.define s ⟨n, none⟩).2 = s := by
  constructor <;> rfl

/-- Claim C1: in every (id-fresh) state of the tag store, `define` with a
name already stored fails with the "previously defined" validation error;
`define` with a name not stored (and a present description, as the spec's
"inputs are plain strings" stipulates) succeeds, inserts the record, returns
the new docID, and the tag is retrievable: `findID` of the name returns the
new docID and `findName` of the new docID returns the name. -/
theorem flairDefine_unique_and_retrievable (s : TagState) (n d : String)
    (hfresh : ∀ t ∈ s.docs, t._id < s.nextId) :
    ((∃ t ∈ s.docs, t.name = n) →
      (FlairCollection.define s ⟨n, some d⟩).1 = .error (.previouslyDefined n))
  ∧ ((∀ t ∈ s.docs, t.name ≠ n) →
      (FlairCollection.define s ⟨n, some d⟩).1 = .ok s.nextId
      ∧ (FlairCollection.define s ⟨n, some d⟩).2.docs =
          s.docs ++ [⟨s.nextId, n, some d⟩]
      ∧ FlairCollection.findID (FlairCollection.define s ⟨n, some d⟩).2 n =
          .ok s.nextId
      ∧ FlairCollection.findName (FlairCollection.define s ⟨n, some d⟩).2
          s.nextId = .ok n) := by
  constructor
  · intro hmem
    have hc : (s.docs.filter (fun t => t.name = n)).length > 0 :=
      (TagState.filter_name_pos_iff s n).mpr hmem
    unfold FlairCollection.define
    simp only [if_pos hc]
  · intro hnone
    have hc : ¬ (s.docs.filter (fun t => t.name = n)).length > 0 := by
      simp only [gt_iff_lt, TagState.filter_name_pos_iff]
      rintro ⟨t, ht, htn⟩
      exact hnone t ht htn
    have hdocs : (FlairCollection.define s ⟨n, some d⟩).2.docs =
        s.docs ++ [⟨s.nextId, n, some d⟩] := by
      unfold FlairCollection.define TagState.insertTag
      simp only [if_neg hc]
    have hfindnone : s.docs.find? (fun t => t.name = n) = none :=
      List.find?_eq_none.mpr (fun t ht => by simpa using hnone t ht)
    have hfindid : s.docs.find? (fun t => t._id = s.nextId) = none :=
      List.find?_eq_none.mpr (fun t ht => by
        simp only [decide_eq_true_eq]
        exact Nat.ne_of_lt (hfresh t ht))
    refine ⟨?_, hdocs, ?_, ?_⟩
    · unfold FlairCollection.define TagState.insertTag
      simp only [if_neg hc]
    · unfold FlairCollection.findID TagState.findDocName
      rw [hdocs, find?_append_of_none _ _ _ hfindnone]
      simp [List.find?]
    · unfold FlairCollection.findName TagState.findDocID
      rw [hdocs, find?_append_of_none _ _ _ hfindid]
      simp [List.find?]

/-- Witness for C1 at a concrete store (one stored tag, a fresh name and a
taken name both exercised through the two conjuncts). -/
theorem flairDefine_unique_and_retrievable_witness :
    (∀ t ∈ (⟨[⟨0, "X", some "y"⟩], 1⟩ : TagState).docs,
        t._id < (⟨[⟨0, "X", some "y"⟩], 1⟩ : TagState).nextId)
  ∧ (((∃ t ∈ (⟨[⟨0, "X", some "y"⟩], 1⟩ : TagState).docs, t.name = "AI") →
      (FlairCollection.define (⟨[⟨0, "X", some "y"⟩], 1⟩ : TagState)
          ⟨"AI", some "d"⟩).1 = .error (.previouslyDefined "AI"))
  ∧ ((∀ t ∈ (⟨[⟨0, "X", some "y"⟩], 1⟩ : TagState).docs, t.name ≠ "AI") →
      (FlairCollection.define (⟨[⟨0, "X", some "y"⟩], 1⟩ : TagState)
          ⟨"AI", some "d"⟩).1 = .ok (⟨[⟨0, "X", some "y"⟩], 1⟩ : TagState).nextId
      ∧ (FlairCollection.define (⟨[⟨0, "X", some "y"⟩], 1⟩ : TagState)
          ⟨"AI", some "d"⟩).2.docs =
          (⟨[⟨0, "X", some "y"⟩], 1⟩ : TagState).docs ++
            [⟨(⟨[⟨0, "X", some "y"⟩], 1⟩ : TagState).nextId, "AI", some "d"⟩]
      ∧ FlairCollection.findID
          (FlairCollection.define (⟨[⟨0, "X", some "y"⟩], 1⟩ : TagState)
            ⟨"AI", some "d"⟩).2 "AI" =
          .ok (⟨[⟨0, "X", some "y"⟩], 1⟩ : TagState).nextId
      ∧ FlairCollection.findName
          (FlairCollection.define (⟨[⟨0, "X", some "y"⟩], 1⟩ : TagState)
            ⟨"AI", some "d"⟩).2
          (⟨[⟨0, "X", some "y"⟩], 1⟩ : TagState).nextId = .ok "AI")) :=
  ⟨by decide,
   flairDefine_unique_and_retrievable ⟨[⟨0, "X", some "y"⟩], 1⟩ "AI" "d"
     (by decide)⟩

/-- Claim C8: tag-name uniqueness is an invariant — in every flair-store
state reachable from the empty store by `define` calls (the only mutating
operation; there is no update or delete path), the stored names contain no
duplicate. -/
theorem tagStore_name_uniqueness_invariant (s : TagState)
    (h : TagReachable s) : (s.docs.map (fun t => t.name)).Nodup := by
  induction h with
  | init => simp [TagState.empty]
  | step s inp i s' hreach hdef ih =>
    unfold FlairCollection.define at hdef
    split at hdef
    · simp at hdef
    · rename_i d hd
      split at hdef
      · simp at hdef
      · rename_i hc
        have hs' : s' = ⟨s.docs ++ [⟨s.nextId, inp.name, some d⟩],
            s.nextId + 1⟩ := by
          have hsnd := congrArg Prod.snd hdef
          simpa [TagState.insertTag] using hsnd.symm
        have hname : ∀ t ∈ s.docs, t.name ≠ inp.name := by
          intro t ht hEq
          exact hc (gt_iff_lt.mpr
            ((TagState.filter_name_pos_iff s inp.name).mpr ⟨t, ht, hEq⟩))
        rw [hs']
        simp only [List.map_append, List.map_cons, List.map_nil]
        refine List.Nodup.append ih (by simp) ?_
        intro a ha hb
        simp only [List.mem_singleton] at hb
        simp only [List.mem_map] at ha
        obtain ⟨t, ht, hta⟩ := ha
        exact hname t ht (hta.trans hb)

/-- Witness for C8 at a concrete reachable state: the store obtained by one
successful `define` on the empty store. -/
theorem tagStore_name_uniqueness_invariant_witness :
    ((⟨[⟨0, "AI", some "d"⟩], 1⟩ : TagState).docs.map
        (fun t => t.name)).Nodup :=
  tagStore_name_uniqueness_invariant ⟨[⟨0, "AI", some "d"⟩], 1⟩
    (TagReachable.step TagState.empty ⟨"AI", some "d"⟩ 0
      ⟨[⟨0, "AI", some "d"⟩], 1⟩ TagReachable.init rfl)


/-- Claim C7: every failing `define` call, on either collection, leaves the
stored collection unchanged — all validation happens before the single
insert, so an error result always returns the input store state. -/
theorem define_error_leaves_state_unchanged
    (ist : InterestState) (ts s1 : TagState) (ps : ProfileState)
    (inp1 : FlairDefineInput) (inp2 : ProfileDefineInput) (e1 e2 : Err)
    (h1 : (FlairCollection.define s1 inp1).1 = .error e1)
    (h2 : (ProfileCollection.define ist ts ps inp2).1 = .error e2) :
    (FlairCollection.define s1 inp1).2 = s1 ∧
    (ProfileCollection.define ist ts ps inp2).2 = ps := by
  constructor
  · rcases hres : FlairCollection.define s1 inp1 with ⟨r, s2⟩
    rw [hres] at h1
    unfold FlairCollection.define at hres
    split at hres
    · exact (congrArg Prod.snd hres).symm
    · split at hres
      · exact (congrArg Prod.snd hres).symm
      · have hfst := congrArg Prod.fst hres
        simp only [TagState.insertTag] at hfst
        rw [← hfst] at h1
        simp at h1
  · rcases hres : ProfileCollection.define ist ts ps inp2 with ⟨r, s2⟩
    rw [hres] at h2
    unfold ProfileCollection.define at hres
    split at hres
    · exact (congrArg Prod.snd hres).symm
    · split at hres
      · exact (congrArg Prod.snd hres).symm
      · split at hres
        · exact (congrArg Prod.snd hres).symm
        · split at hres
          · exact (congrArg Prod.snd hres).symm
          · split at hres
            · exact (congrArg Prod.snd hres).symm
            · have hfst := congrArg Prod.fst hres
              simp only at hfst
              rw [← hfst] at h2
              simp at h2

/-- Witness for C7: concrete failing calls — a duplicate tag name on the
flair store and a duplicate username on the profile store. -/
theorem define_error_leaves_state_unchanged_witness :
    ((FlairCollection.define ⟨[⟨0, "AI", some "d"⟩], 1⟩ ⟨"AI", some "e"⟩).1 =
        .error (.previouslyDefined "AI")
    ∧ (ProfileCollection.define ⟨[]⟩ ⟨[], 0⟩
        ⟨[⟨0, "", "", "jdoe", "", [], [], "", "", "", "", ""⟩], 1⟩
        ⟨none, none, "jdoe", none, none, none, none, none, none, none,
         none⟩).1 = .error (.usernameDefined "jdoe"))
  ∧ ((FlairCollection.define ⟨[⟨0, "AI", some "d"⟩], 1⟩ ⟨"AI", some "e"⟩).2 =
        ⟨[⟨0, "AI", some "d"⟩], 1⟩
    ∧ (ProfileCollection.define ⟨[]⟩ ⟨[], 0⟩
        ⟨[⟨0, "", "", "jdoe", "", [], [], "", "", "", "", ""⟩], 1⟩
        ⟨none, none, "jdoe", none, none, none, none, none, none, none,
         none⟩).2 =
        ⟨[⟨0, "", "", "jdoe", "", [], [], "", "", "", "", ""⟩], 1⟩) :=
  ⟨⟨by rfl, by rfl⟩,
   define_error_leaves_state_unchanged ⟨[]⟩ ⟨[], 0⟩
     ⟨[⟨0, "AI", some "d"⟩], 1⟩
     ⟨[⟨0, "", "", "jdoe", "", [], [], "", "", "", "", ""⟩], 1⟩
     ⟨"AI", some "e"⟩
     ⟨none, none, "jdoe", none, none, none, none, none, none, none, none⟩
     (.previouslyDefined "AI") (.usernameDefined "jdoe")
     (by rfl) (by rfl)⟩

/-- Counterexample to claim C4 as stated: `username` has no destructuring
default in the source — an input with every field absent (so `username`
absent, with the username `""` free in the empty store) does not default and
succeed, but fails with the `check` `Match.Error`, inserting nothing. -/
theorem profileDefine_username_no_default :
    (ProfileCollection.defineRaw ⟨[]⟩ ⟨[], 0⟩ (⟨[], 0⟩ : ProfileState)
        ⟨none, none, none, none, none, none, none, none, none, none,
         none⟩).1 = .error .matchFailed
  ∧ (ProfileCollection.defineRaw ⟨[]⟩ ⟨[], 0⟩ (⟨[], 0⟩ : ProfileState)
        ⟨none, none, none, none, none, none, none, none, none, none,
         none⟩).2.docs = [] :=
  ⟨rfl, rfl⟩

/-- Claim C4 (amended): in `ProfileCollection.define` the destructured
fields `firstName`, `lastName`, `bio`, `picture`, `title` default to the
empty string and `interests`/`flairs` to empty sequences when absent, but
`username` has no default — an input with `username` absent fails with the
`check` `Match.Error`, leaving the store unchanged — and an input supplying
only a fresh username succeeds, inserting the fully defaulted record. -/
theorem profileDefine_defaults_username_required (ist : InterestState)
    (ts : TagState) (s : ProfileState) (u : String)
    (hfree : ∀ p ∈ s.docs, p.username ≠ u) :
    (ProfileCollection.defineRaw ist ts s
        ⟨none, none, none, none, none, none, none, none, none, none,
         none⟩).1 = .error .matchFailed
  ∧ (ProfileCollection.defineRaw ist ts s
        ⟨none, none, none, none, none, none, none, none, none, none,
         none⟩).2 = s
  ∧ (ProfileCollection.defineRaw ist ts s
        ⟨none, none, some u, none, none, none, none, none, none, none,
         none⟩).1 = .ok s.nextId
  ∧ (ProfileCollection.defineRaw ist ts s
        ⟨none, none, some u, none, none, none, none, none, none, none,
         none⟩).2.docs
      = s.docs ++ [⟨s.nextId, "", "", u, "", [], [], "", "", "", "", ""⟩] := by
  have hc : ¬ (s.docs.filter (fun p => p.username = u)).length > 0 := by
    simp only [gt_iff_lt, List.length_pos_iff_exists_mem]
    rintro ⟨p, hp⟩
    rw [List.mem_filter] at hp
    exact hfree p hp.1 (by simpa using hp.2)
  refine ⟨rfl, rfl, ?_, ?_⟩ <;>
    simp [ProfileCollection.defineRaw, ProfileCollection.define, hc,
      Interests.assertNames, FlairCollection.assertNames, uniq]

/-- Witness for the amended C4: the username-absent input and the
username-only input `"jdoe"`, both on empty stores. -/
theorem profileDefine_defaults_username_required_witness :
    (∀ p ∈ (⟨[], 0⟩ : ProfileState).docs, p.username ≠ "jdoe")
  ∧ ((ProfileCollection.defineRaw ⟨[]⟩ ⟨[], 0⟩ (⟨[], 0⟩ : ProfileState)
        ⟨none, none, none, none, none, none, none, none, none, none,
         none⟩).1 = .error .matchFailed
  ∧ (ProfileCollection.defineRaw ⟨[]⟩ ⟨[], 0⟩ (⟨[], 0⟩ : ProfileState)
        ⟨none, none, none, none, none, none, none, none, none, none,
         none⟩).2 = (⟨[], 0⟩ : ProfileState)
  ∧ (ProfileCollection.defineRaw ⟨[]⟩ ⟨[], 0⟩ (⟨[], 0⟩ : ProfileState)
        ⟨none, none, some "jdoe", none, none, none, none, none, none, none,
         none⟩).1 = .ok (⟨[], 0⟩ : ProfileState).nextId
  ∧ (ProfileCollection.defineRaw ⟨[]⟩ ⟨[], 0⟩ (⟨[], 0⟩ : ProfileState)
        ⟨none, none, some "jdoe", none, none, none, none, none, none, none,
         none⟩).2.docs =
      (⟨[], 0⟩ : ProfileState).docs ++
        [⟨(⟨[], 0⟩ : ProfileState).nextId, "", "", "jdoe", "", [], [], "",
          "", "", "", ""⟩]) :=
  ⟨by decide,
   profileDefine_defaults_username_required ⟨[]⟩ ⟨[], 0⟩ ⟨[], 0⟩ "jdoe"
     (by decide)⟩

/-- Claim C9: unlike `findIDs`, `findNames` requires an actual list — with an
`undefined` argument it fails (the `.map` call on `undefined` is a
`TypeError`) instead of returning an empty sequence, while `findNames` of an
empty list returns an empty sequence. -/
theorem flair_findNames_requires_list (s : TagState) :
    FlairCollection.findNames s none = .error .typeError
  ∧ FlairCollection.findNames s (some []) = .ok [] :=
  ⟨rfl, rfl⟩

/-- Claim C5 (code bug): `dumpOne` output is documented to be "in a format
acceptable to `define()`", and the description round-trips — but for a
stored tag without a description (permitted by the schema) the fed-back
object has `description` absent, and `define`'s `check(description, String)`
rejects it with a `Match.Error` instead of succeeding.  For a tag with a
description, the round-trip does succeed and preserves it. -/
theorem dumpOne_define_roundtrip_bug :
    FlairCollection.dumpOne ⟨[⟨0, "AI", none⟩], 1⟩ 0 = .ok ⟨"AI", none⟩
  ∧ (FlairCollection.define ⟨[⟨0, "AI", none⟩], 1⟩ ⟨"Fresh", none⟩).1 =
      .error .matchFailed
  ∧ FlairCollection.dumpOne ⟨[⟨0, "AI", some "d"⟩], 1⟩ 0 =
      .ok ⟨"AI", some "d"⟩
  ∧ (FlairCollection.define ⟨[⟨0, "AI", some "d"⟩], 1⟩ ⟨"Fresh", some "d"⟩).1
      = .ok 1
  ∧ (FlairCollection.define ⟨[⟨0, "AI", some "d"⟩], 1⟩
      ⟨"Fresh", some "d"⟩).2.docs =
      [⟨0, "AI", some "d"⟩, ⟨1, "Fresh", some "d"⟩] :=
  ⟨rfl, rfl, rfl, rfl, rfl⟩

lemma FlairCollection.findIDsList_ok_of_resolvable (s : TagState)
    (ns : List String) (h : ∀ n ∈ ns, ∃ t ∈ s.docs, t.name = n) :
    ∃ ids, FlairCollection.findIDsList s ns = .ok ids ∧
      List.Forall₂ (fun n i => ∃ t ∈ s.docs, t.name = n ∧ t._id = i) ns ids := by
  induction ns with
  | nil => exact ⟨[], rfl, List.Forall₂.nil⟩
  | cons n ns ih =>
    obtain ⟨t, ht, htn⟩ := h n (List.mem_cons_self _ _)
    have hid : ∃ u ∈ s.docs, u.name = n ∧
        FlairCollection.findID s n = .ok u._id := by
      unfold FlairCollection.findID TagState.findDocName
      cases hfind : s.docs.find? (fun u => u.name = n) with
      | none =>
        exfalso
        have hsome : (s.docs.find? (fun u => u.name = n)).isSome :=
          List.find?_isSome.mpr ⟨t, ht, by simp [htn]⟩
        rw [hfind] at hsome
        simp at hsome
      | some u =>
        exact ⟨u, List.mem_of_find?_eq_some hfind,
          by simpa using List.find?_some hfind, rfl⟩
    obtain ⟨u, hu, hun, hfid⟩ := hid
    obtain ⟨ids, hids, hall⟩ := ih (fun m hm => h m (List.mem_cons_of_mem _ hm))
    refine ⟨u._id :: ids, ?_, List.Forall₂.cons ⟨u, hu, hun, rfl⟩ hall⟩
    unfold FlairCollection.findIDsList
    rw [hfid, hids]

lemma FlairCollection.findIDsList_error_of (s : TagState) (ns : List String)
    (h : ∃ n ∈ ns, ∀ t ∈ s.docs, t.name ≠ n) :
    FlairCollection.findIDsList s ns = .error .notFound := by
  induction ns with
  | nil => simp at h
  | cons m ms ih =>
    unfold FlairCollection.findIDsList
    cases hm : FlairCollection.findID s m with
    | error e =>
      unfold FlairCollection.findID TagState.findDocName at hm
      cases hfind : s.docs.find? (fun t => t.name = m) with
      | none => rw [hfind] at hm; simp only [Except.error.injEq] at hm; rw [← hm]
      | some t => rw [hfind] at hm; simp at hm
    | ok i =>
      have hmem : ∃ t ∈ s.docs, t.name = m := by
        unfold FlairCollection.findID TagState.findDocName at hm
        cases hfind : s.docs.find? (fun t => t.name = m) with
        | none => rw [hfind] at hm; simp at hm
        | some t =>
          exact ⟨t, List.mem_of_find?_eq_some hfind,
            by simpa using List.find?_some hfind⟩
      obtain ⟨n, hn, hnone⟩ := h
      rcases List.mem_cons.mp hn with rfl | hn'
      · obtain ⟨t, ht, htn⟩ := hmem
        exact absurd htn (hnone t ht)
      · have := ih ⟨n, hn', hnone⟩
        rw [this]

/-- Claim C6: `findIDs` of an empty list and of an `undefined` argument both
return the empty sequence rather than failing; for a non-empty resolvable
list it returns, in input order, the docID of the stored tag bearing each
name, and it fails when some name is unresolvable. -/
theorem flair_findIDs_empty_undefined_order (s : TagState)
    (ns1 ns2 : List String)
    (hres : ∀ n ∈ ns1, ∃ t ∈ s.docs, t.name = n)
    (hbad : ∃ n ∈ ns2, ∀ t ∈ s.docs, t.name ≠ n) :
    FlairCollection.findIDs s (some []) = .ok []
  ∧ FlairCollection.findIDs s none = .ok []
  ∧ (∃ ids, FlairCollection.findIDs s (some ns1) = .ok ids ∧
      List.Forall₂ (fun n i => ∃ t ∈ s.docs, t.name = n ∧ t._id = i) ns1 ids)
  ∧ FlairCollection.findIDs s (some ns2) = .error .notFound := by
  refine ⟨rfl, rfl, ?_, ?_⟩
  · obtain ⟨ids, hids, hall⟩ :=
      FlairCollection.findIDsList_ok_of_resolvable s ns1 hres
    exact ⟨ids, hids, hall⟩
  · exact FlairCollection.findIDsList_error_of s ns2 hbad

/-- Witness for C6 at a concrete store: names `["ML", "AI"]` resolvable,
`["Nope"]` not. -/
theorem flair_findIDs_empty_undefined_order_witness :
    (∀ n ∈ ["ML", "AI"],
        ∃ t ∈ (⟨[⟨0, "AI", some "a"⟩, ⟨1, "ML", some "b"⟩], 2⟩ :
          TagState).docs, t.name = n)
  ∧ (∃ n ∈ ["Nope"],
        ∀ t ∈ (⟨[⟨0, "AI", some "a"⟩, ⟨1, "ML", some "b"⟩], 2⟩ :
          TagState).docs, t.name ≠ n)
  ∧ (FlairCollection.findIDs
        (⟨[⟨0, "AI", some "a"⟩, ⟨1, "ML", some "b"⟩], 2⟩ : TagState)
        (some []) = .ok []
  ∧ FlairCollection.findIDs
        (⟨[⟨0, "AI", some "a"⟩, ⟨1, "ML", some "b"⟩], 2⟩ : TagState) none =
      .ok []
  ∧ (∃ ids, FlairCollection.findIDs
        (⟨[⟨0, "AI", some "a"⟩, ⟨1, "ML", some "b"⟩], 2⟩ : TagState)
        (some ["ML", "AI"]) = .ok ids ∧
      List.Forall₂ (fun n i => ∃ t ∈ (⟨[⟨0, "AI", some "a"⟩,
          ⟨1, "ML", some "b"⟩], 2⟩ : TagState).docs, t.name = n ∧ t._id = i)
        ["ML", "AI"] ids)
  ∧ FlairCollection.findIDs
        (⟨[⟨0, "AI", some "a"⟩, ⟨1, "ML", some "b"⟩], 2⟩ : TagState)
        (some ["Nope"]) = .error .notFound) :=
  ⟨by decide, by decide,
   flair_findIDs_empty_undefined_order
     ⟨[⟨0, "AI", some "a"⟩, ⟨1, "ML", some "b"⟩], 2⟩ ["ML", "AI"] ["Nope"]
     (by decide) (by decide)⟩

lemma FlairCollection.findIDsList_findNamesList_roundtrip (s : TagState)
    (hnd : (s.docs.map (fun t => t.name)).Nodup) (ids : List Nat)
    (hvalid : ∀ i ∈ ids, ∃ t ∈ s.docs, t._id = i) :
    ∃ names, FlairCollection.findNamesList s ids = .ok names ∧
      FlairCollection.findIDsList s names = .ok ids := by
  induction ids with
  | nil => exact ⟨[], rfl, rfl⟩
  | cons i is ih =>
    obtain ⟨t, ht, hti⟩ := hvalid i (List.mem_cons_self _ _)
    have hdoc : ∃ u ∈ s.docs, s.findDocID i = some u ∧ u._id = i := by
      unfold TagState.findDocID
      cases hfind : s.docs.find? (fun u => u._id = i) with
      | none =>
        exfalso
        have hsome : (s.docs.find? (fun u => u._id = i)).isSome :=
          List.find?_isSome.mpr ⟨t, ht, by simp [hti]⟩
        rw [hfind] at hsome
        simp at hsome
      | some u =>
        exact ⟨u, List.mem_of_find?_eq_some hfind, rfl,
          by simpa using List.find?_some hfind⟩
    obtain ⟨u, hu, hufind, hui⟩ := hdoc
    have hname : FlairCollection.findName s i = .ok u.name := by
      unfold FlairCollection.findName
      rw [hufind]
    have hfid : FlairCollection.findID s u.name = .ok i := by
      rw [← hui]
      exact FlairCollection.findID_of_mem s hnd u hu
    obtain ⟨names, hnames, hids⟩ :=
      ih (fun j hj => hvalid j (List.mem_cons_of_mem _ hj))
    refine ⟨u.name :: names, ?_, ?_⟩
    · unfold FlairCollection.findNamesList
      rw [hname, hnames]
    · unfold FlairCollection.findIDsList
      rw [hfid, hids]

/-- Claim C10: on a store whose tag names are duplicate-free, name and ID
lookup are mutually inverse on stored tags — `findIDs (findNames ids)`
returns the same docIDs in the same order, for every list of valid docIDs. -/
theorem flair_findIDs_findNames_inverse (s : TagState) (ids : List Nat)
    (hnd : (s.docs.map (fun t => t.name)).Nodup)
    (hvalid : ∀ i ∈ ids, ∃ t ∈ s.docs, t._id = i) :
    ∃ names, FlairCollection.findNames s (some ids) = .ok names ∧
      FlairCollection.findIDs s (some names) = .ok ids := by
  obtain ⟨names, hnames, hids⟩ :=
    FlairCollection.findIDsList_findNamesList_roundtrip s hnd ids hvalid
  exact ⟨names, hnames, hids⟩

/-- Witness for C10 at a concrete store and the reversed id list `[1, 0]`. -/
theorem flair_findIDs_findNames_inverse_witness :
    ((⟨[⟨0, "AI", some "a"⟩, ⟨1, "ML", some "b"⟩], 2⟩ : TagState).docs.map
        (fun t => t.name)).Nodup
  ∧ (∀ i ∈ [1, 0], ∃ t ∈ (⟨[⟨0, "AI", some "a"⟩, ⟨1, "ML", some "b"⟩], 2⟩ :
        TagState).docs, t._id = i)
  ∧ (∃ names, FlairCollection.findNames
        (⟨[⟨0, "AI", some "a"⟩, ⟨1, "ML", some "b"⟩], 2⟩ : TagState)
        (some [1, 0]) = .ok names ∧
      FlairCollection.findIDs
        (⟨[⟨0, "AI", some "a"⟩, ⟨1, "ML", some "b"⟩], 2⟩ : TagState)
        (some names) = .ok [1, 0]) :=
  ⟨by decide, by decide,
   flair_findIDs_findNames_inverse
     ⟨[⟨0, "AI", some "a"⟩, ⟨1, "ML", some "b"⟩], 2⟩ [1, 0]
     (by decide) (by decide)⟩

lemma ProfileState.username_check_true (s : ProfileState) (u : String)
    (h : ∃ p ∈ s.docs, p.username = u) :
    (s.docs.filter (fun p => p.username = u)).length > 0 := by
  obtain ⟨p, hp, hpu⟩ := h
  simp only [gt_iff_lt, List.length_pos_iff_exists_mem]
  exact ⟨p, List.mem_filter.mpr ⟨hp, by simp [hpu]⟩⟩

lemma ProfileState.username_check_false (s : ProfileState) (u : String)
    (h : ∀ p ∈ s.docs, p.username ≠ u) :
    ¬ (s.docs.filter (fun p => p.username = u)).length > 0 := by
  simp only [gt_iff_lt, List.length_pos_iff_exists_mem]
  rintro ⟨p, hp⟩
  rw [List.mem_filter] at hp
  exact h p hp.1 (by simpa using hp.2)

lemma uniq_test_true (l : List String) (h : ¬ l.Nodup) :
    l.length ≠ (uniq l).length := by
  intro hEq
  exact h ((uniq_length_eq_iff l).mp hEq.symm)

lemma uniq_test_false (l : List String) (h : l.Nodup) :
    ¬ l.length ≠ (uniq l).length := by
  intro hne
  exact hne ((uniq_length_eq_iff l).mpr h).symm

/-- Claim C2: `ProfileCollection.define` validates in the order
(a) username not already registered, (b) every interests entry resolves in
the InterestStore, (c) no duplicates within interests, (d) every flairs
entry resolves via the flair store's `assertNames`, (e) no duplicates within
flairs — each check only reached when the previous ones pass — and only when
all pass does the insert occur; in particular an input repeating a valid
interest name fails at the duplicate-interest check (error
`interestsDuplicates`), not at insert. -/
theorem profileDefine_validation_order (ist : InterestState) (ts : TagState)
    (s : ProfileState)
    (inpA inpB inpC inpD inpE inpF : ProfileDefineInput)
    (hA : ∃ p ∈ s.docs, p.username = inpA.username)
    (hBu : ∀ p ∈ s.docs, p.username ≠ inpB.username)
    (hBbad : ∃ n ∈ inpB.interests.getD [], n ∉ ist.names)
    (hCu : ∀ p ∈ s.docs, p.username ≠ inpC.username)
    (hCint : ∀ n ∈ inpC.interests.getD [], n ∈ ist.names)
    (hCdup : ¬ (inpC.interests.getD []).Nodup)
    (hDu : ∀ p ∈ s.docs, p.username ≠ inpD.username)
    (hDint : ∀ n ∈ inpD.interests.getD [], n ∈ ist.names)
    (hDnodup : (inpD.interests.getD []).Nodup)
    (hDbad : ∃ n ∈ inpD.flairs.getD [], ∀ t ∈ ts.docs, t.name ≠ n)
    (hEu : ∀ p ∈ s.docs, p.username ≠ inpE.username)
    (hEint : ∀ n ∈ inpE.interests.getD [], n ∈ ist.names)
    (hEnodup : (inpE.interests.getD []).Nodup)
    (hEflair : ∀ n ∈ inpE.flairs.getD [], ∃ t ∈ ts.docs, t.name = n)
    (hEdup : ¬ (inpE.flairs.getD []).Nodup)
    (hFu : ∀ p ∈ s.docs, p.username ≠ inpF.username)
    (hFint : ∀ n ∈ inpF.interests.getD [], n ∈ ist.names)
    (hFinodup : (inpF.interests.getD []).Nodup)
    (hFflair : ∀ n ∈ inpF.flairs.getD [], ∃ t ∈ ts.docs, t.name = n)
    (hFfnodup : (inpF.flairs.getD []).Nodup) :
    (ProfileCollection.define ist ts s inpA).1 =
        .error (.usernameDefined inpA.username)
  ∧ (∃ n, (ProfileCollection.define ist ts s inpB).1 =
        .error (.interestNotFound n) ∧ n ∈ inpB.interests.getD [] ∧
        n ∉ ist.names)
  ∧ (ProfileCollection.define ist ts s inpC).1 =
        .error (.interestsDuplicates (inpC.interests.getD []))
  ∧ (ProfileCollection.define ist ts s inpD).1 = .error .notFound
  ∧ (ProfileCollection.define ist ts s inpE).1 =
        .error (.flairsDuplicates (inpE.flairs.getD []))
  ∧ ((ProfileCollection.define ist ts s inpF).1 = .ok s.nextId
     ∧ (ProfileCollection.define ist ts s inpF).2.docs =
        s.docs ++ [⟨s.nextId, inpF.firstName.getD "", inpF.lastName.getD "",
          inpF.username, inpF.bio.getD "", inpF.interests.getD [],
          inpF.flairs.getD [], inpF.picture.getD "", inpF.title.getD "",
          inpF.github.getD "", inpF.facebook.getD "",
          inpF.instagram.getD ""⟩]) := by
  refine ⟨?_, ?_, ?_, ?_, ?_, ?_⟩
  · have h1 := ProfileState.username_check_true s inpA.username hA
    simp only [ProfileCollection.define, if_pos h1]
  · have h1 := ProfileState.username_check_false s inpB.username hBu
    obtain ⟨n, heq, hmem, hnot⟩ :=
      Interests.interestAssertNames_error_of ist (inpB.interests.getD []) hBbad
    refine ⟨n, ?_, hmem, hnot⟩
    simp only [ProfileCollection.define, if_neg h1, heq]
  · have h1 := ProfileState.username_check_false s inpC.username hCu
    have h2 : Interests.assertNames ist (inpC.interests.getD []) = .ok () :=
      (Interests.interestAssertNames_ok_iff ist _).mpr hCint
    have h3 := uniq_test_true _ hCdup
    simp only [ProfileCollection.define, if_neg h1, h2, if_pos h3]
  · have h1 := ProfileState.username_check_false s inpD.username hDu
    have h2 : Interests.assertNames ist (inpD.interests.getD []) = .ok () :=
      (Interests.interestAssertNames_ok_iff ist _).mpr hDint
    have h3 := uniq_test_false _ hDnodup
    have h4 : FlairCollection.assertNames ts (inpD.flairs.getD []) =
        .error .notFound :=
      FlairCollection.assertNames_error_of ts _ hDbad
    simp only [ProfileCollection.define, if_neg h1, h2, if_neg h3, h4]
  · have h1 := ProfileState.username_check_false s inpE.username hEu
    have h2 : Interests.assertNames ist (inpE.interests.getD []) = .ok () :=
      (Interests.interestAssertNames_ok_iff ist _).mpr hEint
    have h3 := uniq_test_false _ hEnodup
    have h4 : FlairCollection.assertNames ts (inpE.flairs.getD []) = .ok () :=
      (FlairCollection.assertNames_ok_iff ts _).mpr hEflair
    have h5 := uniq_test_true _ hEdup
    simp only [ProfileCollection.define, if_neg h1, h2, if_neg h3, h4,
      if_pos h5]
  · have h1 := ProfileState.username_check_false s inpF.username hFu
    have h2 : Interests.assertNames ist (inpF.interests.getD []) = .ok () :=
      (Interests.interestAssertNames_ok_iff ist _).mpr hFint
    have h3 := uniq_test_false _ hFinodup
    have h4 : FlairCollection.assertNames ts (inpF.flairs.getD []) = .ok () :=
      (FlairCollection.assertNames_ok_iff ts _).mpr hFflair
    have h5 := uniq_test_false _ hFfnodup
    constructor <;>
      simp only [ProfileCollection.define, if_neg h1, h2, if_neg h3, h4,
        if_neg h5]

/-- Interest store used by the validation-order witness. -/
def istW : InterestState := ⟨["AI", "ML"]⟩

/-- Flair store used by the validation-order witness. -/
def tsW : TagState := ⟨[⟨0, "F", some "d"⟩], 1⟩

/-- Profile store used by the validation-order witness: username `"taken"`
is already registered. -/
def psW : ProfileState :=
  ⟨[⟨0, "", "", "taken", "", [], [], "", "", "", "", ""⟩], 1⟩

/-- Input builder for the validation-order witness: only the username,
interests and flairs fields are supplied. -/
def inpW (u : String) (ints fls : Option (List String)) :
    ProfileDefineInput :=
  ⟨none, none, u, none, ints, fls, none, none, none, none, none⟩

/-- Witness for C2: the five failure scenarios and the all-pass scenario at
concrete inputs — including the spec's example `{username: "jdoe",
interests: ["AI", "AI"]}` with `"AI"` a valid interest, which fails with the
duplicate-interest error, not at insert. -/
theorem profileDefine_validation_order_witness :
    ((∃ p ∈ psW.docs, p.username = "taken")
  ∧ (∀ p ∈ psW.docs, p.username ≠ "jdoe")
  ∧ (∃ n ∈ ["Bad"], n ∉ istW.names)
  ∧ (∀ n ∈ ["AI", "AI"], n ∈ istW.names)
  ∧ ¬ (["AI", "AI"] : List String).Nodup
  ∧ (∃ n ∈ ["Unknown"], ∀ t ∈ tsW.docs, t.name ≠ n)
  ∧ (∀ n ∈ ["F", "F"], ∃ t ∈ tsW.docs, t.name = n)
  ∧ ¬ (["F", "F"] : List String).Nodup)
  ∧ ((ProfileCollection.define istW tsW psW (inpW "taken" none none)).1 =
        .error (.usernameDefined "taken")
  ∧ (∃ n, (ProfileCollection.define istW tsW psW
        (inpW "jdoe" (some ["Bad"]) none)).1 =
        .error (.interestNotFound n) ∧ n ∈ ["Bad"] ∧ n ∉ istW.names)
  ∧ (ProfileCollection.define istW tsW psW
        (inpW "jdoe" (some ["AI", "AI"]) none)).1 =
        .error (.interestsDuplicates ["AI", "AI"])
  ∧ (ProfileCollection.define istW tsW psW
        (inpW "jdoe" (some ["AI"]) (some ["Unknown"]))).1 = .error .notFound
  ∧ (ProfileCollection.define istW tsW psW
        (inpW "jdoe" none (some ["F", "F"]))).1 =
        .error (.flairsDuplicates ["F", "F"])
  ∧ ((ProfileCollection.define istW tsW psW
        (inpW "jdoe" (some ["AI"]) (some ["F"]))).1 = .ok psW.nextId
     ∧ (ProfileCollection.define istW tsW psW
        (inpW "jdoe" (some ["AI"]) (some ["F"]))).2.docs =
        psW.docs ++ [⟨psW.nextId, "", "", "jdoe", "", ["AI"], ["F"], "", "",
          "", "", ""⟩])) :=
  ⟨⟨by decide, by decide, by decide, by decide, by decide, by decide,
    by decide, by decide⟩,
   profileDefine_validation_order istW tsW psW
     (inpW "taken" none none) (inpW "jdoe" (some ["Bad"]) none)
     (inpW "jdoe" (some ["AI", "AI"]) none)
     (inpW "jdoe" (some ["AI"]) (some ["Unknown"]))
     (inpW "jdoe" none (some ["F", "F"]))
     (inpW "jdoe" (some ["AI"]) (some ["F"]))
     (by decide) (by decide) (by decide) (by decide) (by decide) (by decide)
     (by decide) (by decide) (by decide) (by decide) (by decide) (by decide)
     (by decide) (by decide) (by decide) (by decide) (by decide) (by decide)
     (by decide) (by decide)⟩
